import Mathlib

/-!
Elora rev1: matrix acquisition and encoder pad map.

A shallow embedding of `keyboards/splitkb/elora/rev1/rev1.c`:
`early_hardware_init_pre`, `enter_standby_mode`, `matrix_scan_custom`,
`mat_is_on`, `encoder_read_pads_from`, `encoder_init_pads` and
`encoder_read_pads`.

Conventions.
* A `matrix_row_t` array and the `uint8_t data[]` buffer are `List Nat`;
  a `bool pads[]` array is `List Bool`.  Reads are `getD i 0`, writes are
  `List.set`.  Arithmetic on `uint8_t` is made explicit by `u8`.
* Calls into code outside this file (`spi_start`, `spi_receive`, `spi_stop`,
  `dprint`, `myriad_task`, ...) are recorded, in program order, in a log of
  `Event`s.  What the outside returns (`spi_receive`'s status and buffer,
  `is_keyboard_left()`, `readPin(GP2)`) is an argument of the embedded function.
* `MYRIAD_ENABLE` is a build option: `none` is the build without it, `some m`
  the build with it, `m` holding the two hooks of `myriad.h`.
-/

namespace Elora

/-! ## Data model -/

/-- Pins named by the embedded functions. -/
inductive Pin where
  | GP2
  | GP9
  | GP13
  | ELORA_CC1_PIN
  | ELORA_CC2_PIN
  deriving DecidableEq

/-- Calls that leave this translation unit, in the order they are made. -/
inductive Event where
  | setPinInput (pin : Pin)
  | readPin (pin : Pin)
  | setPinOutput (pin : Pin)
  | writePinHigh (pin : Pin)
  | writePinLow (pin : Pin)
  | keyboard_pre_init_user
  | xosc_dormant
  | spi_init
  | spi_start (pin : Pin) (lsbFirst : Bool) (mode : Nat) (divisor : Nat)
  | spi_receive (length : Nat)
  | spi_stop
  | dprint (msg : String)
  | myriad_task
  | myriad_hook_matrix (current_matrix : List Nat)
  | myriad_hook_encoder (count : Nat) (pads : List Bool)
  deriving DecidableEq

/-- Status code of `spi_master.h` (an `int16_t`). -/
abbrev spi_status_t := Int

/-- Modelled from the spec: the value of the macro `SPI_STATUS_SUCCESS` of
`spi_master.h`, a header outside this file; §4.1 only distinguishes `Success`
from `Timeout/Error`.  The embedding compares against this name only. -/
def SPI_STATUS_SUCCESS : spi_status_t := 0

/-- Modelled from the spec: a status of `spi_master.h` other than success
(`Timeout` of §4.1). -/
def SPI_STATUS_TIMEOUT : spi_status_t := -2

/-- What one `spi_receive(data, length)` hands back: the returned status and
the contents of `data` afterwards. -/
structure SpiRx where
  status : spi_status_t
  data : List Nat
  deriving DecidableEq

/-- A receive that succeeded with chain bytes `d`. -/
def SpiRx.ok (d : List Nat) : SpiRx := ⟨SPI_STATUS_SUCCESS, d⟩

/-- The two hooks of the Myriad module (`myriad.c`, outside this file).
`hook_matrix` may rewrite the matrix and returns its own change flag;
`hook_encoder` may rewrite the pads. -/
structure Myriad where
  hook_matrix : List Nat → List Nat × Bool
  hook_encoder : Nat → List Bool → List Bool

/-- Globals and the log of outside calls. -/
structure World where
  raw_matrix : List Nat
  log : List Event
  deriving DecidableEq

/-- Record one outside call. -/
def World.emit (w : World) (e : Event) : World :=
  { w with log := w.log ++ [e] }

/-! ## C arithmetic -/

/-- Conversion of an `int` to `uint8_t`. -/
def u8 (x : Int) : Nat := (x % 256).toNat

/-- The operator `~` on an `int` (two's complement). -/
def c_not (x : Int) : Int := -x - 1

/-- Conversion of an integer to `bool`. -/
def to_bool (n : Nat) : Bool := decide (n ≠ 0)

/-- The value of a `bool` after promotion to `int`. -/
def of_bool (b : Bool) : Nat := if b then 1 else 0

/-! ## Matrix functionality -/

/-- Body of the `for` loop of `matrix_scan_custom`, at index `i`:
`word = ~data[i]; matrix_has_changed |= current_matrix[i] ^ word;
current_matrix[i] = word;`. -/
def scan_body (data : List Nat) (st : Bool × List Nat) (i : Nat) : Bool × List Nat :=
  let word : Nat := u8 (c_not (data.getD i 0 : Nat))
  let matrix_has_changed := to_bool (of_bool st.1 ||| (st.2.getD i 0 ^^^ word))
  (matrix_has_changed, st.2.set i word)

/-- The loop `for (uint8_t i = 0; i < length; i++)` of `matrix_scan_custom`,
started with `matrix_has_changed = false`. -/
def scan_loop (length : Nat) (data : List Nat) (current_matrix : List Nat) : Bool × List Nat :=
  (List.range length).foldl (scan_body data) (false, current_matrix)

/-- Result of `matrix_scan_custom`: the returned flag, the array the argument
points to, and the world. -/
structure Scan where
  ret : Bool
  current_matrix : List Nat
  world : World
  deriving DecidableEq

/-- `bool matrix_scan_custom(matrix_row_t current_matrix[])`. -/
def matrix_scan_custom (myriad : Option Myriad) (rx : SpiRx)
    (current_matrix : List Nat) (w : World) : Scan :=
  let length : Nat := 5
  let w := w.emit (Event.spi_start Pin.GP13 false 0 128)
  let w := w.emit (Event.spi_receive length)
  let data := rx.data
  let res := rx.status
  let w := w.emit Event.spi_stop
  let w := if res ≠ SPI_STATUS_SUCCESS then
      w.emit (Event.dprint "ERROR: SPI timed out while reading matrix!")
    else w
  let st := scan_loop length data current_matrix
  let matrix_has_changed := st.1
  let current_matrix := st.2
  match myriad with
  | some m =>
    let w := w.emit Event.myriad_task
    -- `matrix_has_changed || myriad_hook_matrix(current_matrix)`
    if matrix_has_changed then
      ⟨true, current_matrix, w⟩
    else
      let w := w.emit (Event.myriad_hook_matrix current_matrix)
      let r := m.hook_matrix current_matrix
      ⟨r.2, r.1, w⟩
  | none => ⟨matrix_has_changed, current_matrix, w⟩

/-! ## Encoder functionality -/

/-- `bool mat_is_on(matrix_row_t mat[], uint8_t row, uint8_t col)`. -/
def mat_is_on (mat : List Nat) (row col : Nat) : Bool :=
  to_bool (mat.getD row 0 &&& (1 <<< col))

/-- `void encoder_read_pads_from(bool pads[], matrix_row_t mat[])`;
`is_keyboard_left` is what `is_keyboard_left()` returns. -/
def encoder_read_pads_from (is_keyboard_left : Bool) (pads : List Bool)
    (mat : List Nat) : List Bool :=
  if is_keyboard_left then
    let pads := pads.set 0 (mat_is_on mat 0 6)
    let pads := pads.set 1 (mat_is_on mat 0 7)
    let pads := pads.set 2 (mat_is_on mat 1 2)
    let pads := pads.set 3 (mat_is_on mat 1 3)
    let pads := pads.set 4 (mat_is_on mat 1 0)
    pads.set 5 (mat_is_on mat 1 1)
  else
    let pads := pads.set 0 (mat_is_on mat 0 0)
    let pads := pads.set 1 (mat_is_on mat 0 1)
    let pads := pads.set 2 (mat_is_on mat 1 4)
    let pads := pads.set 3 (mat_is_on mat 1 5)
    let pads := pads.set 4 (mat_is_on mat 1 6)
    pads.set 5 (mat_is_on mat 1 7)

/-- Result of the two pad readers: the `pads` array and the world. -/
structure PadsResult where
  pads : List Bool
  world : World
  deriving DecidableEq

/-- The tail shared by `encoder_init_pads` and `encoder_read_pads`:
`pads[6] = 0; pads[7] = 0;` and, under `MYRIAD_ENABLE`,
`myriad_hook_encoder(count, pads);`. -/
def clear_myriad_pads (myriad : Option Myriad) (count : Nat)
    (pads : List Bool) (w : World) : PadsResult :=
  let pads := pads.set 6 false
  let pads := pads.set 7 false
  match myriad with
  | some m => ⟨m.hook_encoder count pads, w.emit (Event.myriad_hook_encoder count pads)⟩
  | none => ⟨pads, w⟩

/-- `void encoder_init_pads(uint8_t count, bool pads[])`.  `mat` is the content
of the local, uninitialised `matrix_row_t mat[MATRIX_ROWS]`. -/
def encoder_init_pads (myriad : Option Myriad) (is_keyboard_left : Bool)
    (rx : SpiRx) (mat : List Nat) (count : Nat) (pads : List Bool)
    (w : World) : PadsResult :=
  let s := matrix_scan_custom myriad rx mat w
  let mat := s.current_matrix
  let pads := encoder_read_pads_from is_keyboard_left pads mat
  clear_myriad_pads myriad count pads s.world

/-- `void encoder_read_pads(uint8_t count, bool pads[])`, reading the global
`raw_matrix`. -/
def encoder_read_pads (myriad : Option Myriad) (is_keyboard_left : Bool)
    (count : Nat) (pads : List Bool) (w : World) : PadsResult :=
  let pads := encoder_read_pads_from is_keyboard_left pads w.raw_matrix
  clear_myriad_pads myriad count pads w

/-! ## Well-formed inputs -/

/-- A chain byte vector as a successful receive of length 5 leaves it:
five bytes. -/
def ChainOk (d : List Nat) : Prop := d.length = 5 ∧ ∀ x ∈ d, x < 256

instance (d : List Nat) : Decidable (ChainOk d) := by
  unfold ChainOk; infer_instance

/-! ## Early boot -/

/-- Control points of the boot sequence. -/
inductive Pc where
  /-- about to run `early_hardware_init_pre` -/
  | early_hardware_init_pre
  /-- at the head of `while (true)` in `enter_standby_mode` -/
  | enter_standby_mode
  /-- `early_hardware_init_pre` has returned; `keyboard_pre_init_kb` is next -/
  | keyboard_pre_init_kb
  /-- the periodic scan ticks -/
  | scanning
  deriving DecidableEq

/-- What the hardware answers during one step: the level `readPin(GP2)` sees
and what a `spi_receive` hands back. -/
structure Env where
  gp2 : Bool
  rx : SpiRx
  deriving DecidableEq

/-- State of the boot sequence. -/
structure Boot where
  pc : Pc
  world : World
  deriving DecidableEq

/-- One pass through the body of `while (true)` in `enter_standby_mode`:
`xosc_dormant()` returns once an interrupt wakes the core, and the loop
goes round. -/
def enter_standby_mode (w : World) : Boot :=
  ⟨Pc.enter_standby_mode, w.emit Event.xosc_dormant⟩

/-- `void early_hardware_init_pre(void)`, up to the point where it either
returns or has entered `enter_standby_mode`. -/
def early_hardware_init_pre (gp2 : Bool) (w : World) : Boot :=
  let w := w.emit (Event.setPinInput Pin.GP2)
  let w := w.emit (Event.readPin Pin.GP2)
  if !gp2 then
    ⟨Pc.enter_standby_mode, w⟩
  else
    ⟨Pc.keyboard_pre_init_kb, w⟩

/-- `void keyboard_pre_init_kb(void)`. -/
def keyboard_pre_init_kb (w : World) : World :=
  let w := w.emit (Event.setPinOutput Pin.GP13)
  let w := w.emit (Event.writePinHigh Pin.GP13)
  let w := w.emit (Event.setPinOutput Pin.GP9)
  let w := w.emit (Event.writePinHigh Pin.GP9)
  let w := w.emit (Event.setPinOutput Pin.ELORA_CC1_PIN)
  let w := w.emit (Event.writePinLow Pin.ELORA_CC1_PIN)
  let w := w.emit (Event.setPinOutput Pin.ELORA_CC2_PIN)
  let w := w.emit (Event.writePinLow Pin.ELORA_CC2_PIN)
  let w := w.emit Event.spi_init
  w.emit Event.keyboard_pre_init_user

/-- Modelled from the spec: the scan tick of the keyboard core
(`quantum/matrix_common.c`, outside this file).  §4.4: the cycle
is invoked once per scan tick on the caller-owned Matrix Snapshot, here the
global `raw_matrix`. -/
def scan_tick (myriad : Option Myriad) (rx : SpiRx) (w : World) : World :=
  let s := matrix_scan_custom myriad rx w.raw_matrix w
  { s.world with raw_matrix := s.current_matrix }

/-- Step function of the boot sequence. -/
def step (myriad : Option Myriad) (s : Boot) (e : Env) : Boot :=
  match s.pc with
  | Pc.early_hardware_init_pre => early_hardware_init_pre e.gp2 s.world
  | Pc.enter_standby_mode => enter_standby_mode s.world
  | Pc.keyboard_pre_init_kb => ⟨Pc.scanning, keyboard_pre_init_kb s.world⟩
  | Pc.scanning => ⟨Pc.scanning, scan_tick myriad e.rx s.world⟩

/-- Run the boot sequence against a list of hardware answers. -/
def run (myriad : Option Myriad) (s : Boot) (es : List Env) : Boot :=
  es.foldl (step myriad) s

/-- The state at reset. -/
def reset (raw_matrix : List Nat) : Boot :=
  ⟨Pc.early_hardware_init_pre, ⟨raw_matrix, []⟩⟩

/-- Is the event a call into the serial transport? -/
def Event.is_transport : Event → Bool
  | Event.spi_start _ _ _ _ => true
  | Event.spi_receive _ => true
  | Event.spi_stop => true
  | _ => false

/-- The calls into the serial transport among the logged events. -/
def transport_log (w : World) : List Event :=
  w.log.filter Event.is_transport

/-- Transport call count. -/
def transport_calls (w : World) : Nat := (transport_log w).length

/-! ## Vocabulary of the specification -/

/-- Bit `c` of row `r` of a Matrix Snapshot. -/
def bit_at (mat : List Nat) (r c : Nat) : Bool := (mat.getD r 0).testBit c

/-- The documented per-half table (the comment in `encoder_read_pads_from`):
the `(row, col)` positions of pads 0..5. -/
def pad_positions (is_left : Bool) : List (Nat × Nat) :=
  if is_left then [(0, 6), (0, 7), (1, 2), (1, 3), (1, 0), (1, 1)]
  else [(0, 0), (0, 1), (1, 4), (1, 5), (1, 6), (1, 7)]

/-- The per-half pad map applied to a matrix. -/
def pad_table (is_left : Bool) (mat : List Nat) : List Bool :=
  (pad_positions is_left).map (fun p => bit_at mat p.1 p.2)

/-- Number of set bits among the low 8 bits. -/
def popcount8 (n : Nat) : Nat := ((List.range 8).filter (fun k => n.testBit k)).length

/-- Number of bit positions in which two chain byte vectors differ. -/
def bit_diff_count (d d' : List Nat) : Nat :=
  ((List.zipWith (fun a b => popcount8 (a ^^^ b)) d d')).sum

/-- The 8-bit bitwise NOT of every chain byte. -/
def not_bytes (d : List Nat) : List Nat := d.map (fun b => 255 - b)

/-- An instance of the module hooks, for evaluating the `MYRIAD_ENABLE` build:
a companion whose switch 0 is held.  `hook_matrix` stores `0x01` in row 5, a row
the shift-register decode does not write, and reports whether that row changed;
`hook_encoder` leaves the pads alone. -/
def companion_switch : Myriad :=
  ⟨fun m => (m.set 5 0x01, decide (m.getD 5 0 ≠ 0x01)), fun _ pads => pads⟩

theorem u8_c_not (d : Nat) (h : d < 256) : u8 (c_not (d : Nat)) = 255 - d := by
  unfold u8 c_not
  omega

theorem one_or_ne_zero (z : Nat) : 1 ||| z ≠ 0 := by
  intro h
  have h0 := congrArg (fun n => Nat.testBit n 0) h
  simp at h0

theorem to_bool_or_xor (b : Bool) (x y : Nat) :
    to_bool (of_bool b ||| (x ^^^ y)) = (b || decide (x ≠ y)) := by
  cases b <;> simp [to_bool, of_bool, Nat.xor_eq_zero, one_or_ne_zero]

theorem scan_body_eq (data : List Nat) (st : Bool × List Nat) (i : Nat) :
    scan_body data st i =
      (st.1 || decide (st.2.getD i 0 ≠ u8 (c_not (data.getD i 0 : Nat))),
        st.2.set i (u8 (c_not (data.getD i 0 : Nat)))) := by
  simp only [scan_body, to_bool_or_xor]

theorem chain_cases {d : List Nat} (h : ChainOk d) :
    ∃ d0 d1 d2 d3 d4, d = [d0, d1, d2, d3, d4] ∧
      d0 < 256 ∧ d1 < 256 ∧ d2 < 256 ∧ d3 < 256 ∧ d4 < 256 := by
  obtain ⟨hl, hb⟩ := h
  match d, hl, hb with
  | [d0, d1, d2, d3, d4], _, hb =>
    exact ⟨d0, d1, d2, d3, d4, rfl, hb _ (by simp), hb _ (by simp), hb _ (by simp),
      hb _ (by simp), hb _ (by simp)⟩

theorem rows_cases {m : List Nat} (h : 5 ≤ m.length) :
    ∃ a b c e f rest, m = a :: b :: c :: e :: f :: rest := by
  match m, h with
  | a :: b :: c :: e :: f :: rest, _ => exact ⟨a, b, c, e, f, rest, rfl⟩

/-- The decode loop on five bytes and at least five rows, in closed form. -/
theorem scan_loop_cons (d0 d1 d2 d3 d4 a b c e f : Nat) (rest : List Nat)
    (h0 : d0 < 256) (h1 : d1 < 256) (h2 : d2 < 256) (h3 : d3 < 256) (h4 : d4 < 256) :
    scan_loop 5 [d0, d1, d2, d3, d4] (a :: b :: c :: e :: f :: rest) =
      (decide (a ≠ 255 - d0) || decide (b ≠ 255 - d1) || decide (c ≠ 255 - d2) ||
        decide (e ≠ 255 - d3) || decide (f ≠ 255 - d4),
       (255 - d0) :: (255 - d1) :: (255 - d2) :: (255 - d3) :: (255 - d4) :: rest) := by
  have hr : List.range 5 = [0, 1, 2, 3, 4] := rfl
  simp [scan_loop, hr, scan_body_eq, u8_c_not, h0, h1, h2, h3, h4]

theorem matrix_scan_none_matrix (rx : SpiRx) (m : List Nat) (w : World) :
    (matrix_scan_custom none rx m w).current_matrix = (scan_loop 5 rx.data m).2 := rfl

theorem matrix_scan_none_ret (rx : SpiRx) (m : List Nat) (w : World) :
    (matrix_scan_custom none rx m w).ret = (scan_loop 5 rx.data m).1 := rfl

theorem popcount8_zero : popcount8 0 = 0 := by decide

theorem bit_diff_count_self (d : List Nat) : bit_diff_count d d = 0 := by
  induction d with
  | nil => rfl
  | cons a t ih =>
    simp only [bit_diff_count] at ih
    simp [bit_diff_count, Nat.xor_self, popcount8_zero, ih]

/-! ## Shift-register chain decoder -/

/-- C2: in the build without the external module, after a successful receive
`matrix_scan_custom` returns true exactly when one of rows 0..4 of the snapshot
differs after the call from its value before; the flag is the OR over `i` of
`(previous_row[i] XOR NOT(d[i])) != 0`. -/
theorem matrix_scan_custom_flag_iff_row_changed (prev d : List Nat) (w : World)
    (hp : 5 ≤ prev.length) (hd : ChainOk d) :
    ((matrix_scan_custom none (SpiRx.ok d) prev w).ret = true ↔
        ∃ i, i < 5 ∧
          (matrix_scan_custom none (SpiRx.ok d) prev w).current_matrix.getD i 0
            ≠ prev.getD i 0)
      ∧ (matrix_scan_custom none (SpiRx.ok d) prev w).ret
          = (List.range 5).any
              (fun i => decide ((prev.getD i 0 ^^^ (255 - d.getD i 0)) ≠ 0)) := by
  obtain ⟨d0, d1, d2, d3, d4, rfl, h0, h1, h2, h3, h4⟩ := chain_cases hd
  obtain ⟨a, b, c, e, f, rest, rfl⟩ := rows_cases hp
  have hr : List.range 5 = [0, 1, 2, 3, 4] := rfl
  rw [matrix_scan_none_matrix, matrix_scan_none_ret]
  simp only [SpiRx.ok]
  rw [scan_loop_cons _ _ _ _ _ _ _ _ _ _ _ h0 h1 h2 h3 h4]
  constructor
  · constructor
    · intro h
      simp only [Bool.or_eq_true, decide_eq_true_eq] at h
      rcases h with (((h | h) | h) | h) | h
      · exact ⟨0, by decide, by simpa using Ne.symm h⟩
      · exact ⟨1, by decide, by simpa using Ne.symm h⟩
      · exact ⟨2, by decide, by simpa using Ne.symm h⟩
      · exact ⟨3, by decide, by simpa using Ne.symm h⟩
      · exact ⟨4, by decide, by simpa using Ne.symm h⟩
    · rintro ⟨i, hi, hne⟩
      interval_cases i <;> simp at hne <;> simp [Ne.symm hne]
  · simp [hr, Nat.xor_eq_zero, Bool.or_assoc]

theorem matrix_scan_custom_flag_iff_row_changed_witness :
    ((matrix_scan_custom none (SpiRx.ok [0xFF, 0xFF, 0xFE, 0xFF, 0xFF])
          [0, 0, 0, 0, 0] ⟨[], []⟩).ret = true ↔
        ∃ i, i < 5 ∧
          (matrix_scan_custom none (SpiRx.ok [0xFF, 0xFF, 0xFE, 0xFF, 0xFF])
            [0, 0, 0, 0, 0] ⟨[], []⟩).current_matrix.getD i 0
            ≠ [0, 0, 0, 0, 0].getD i 0)
      ∧ (matrix_scan_custom none (SpiRx.ok [0xFF, 0xFF, 0xFE, 0xFF, 0xFF])
          [0, 0, 0, 0, 0] ⟨[], []⟩).ret
          = (List.range 5).any
              (fun i => decide (([0, 0, 0, 0, 0].getD i 0
                ^^^ (255 - [0xFF, 0xFF, 0xFE, 0xFF, 0xFF].getD i 0)) ≠ 0)) :=
  matrix_scan_custom_flag_iff_row_changed [0, 0, 0, 0, 0] [0xFF, 0xFF, 0xFE, 0xFF, 0xFF]
    ⟨[], []⟩ (by decide) (by decide)

/-- C3: two consecutive calls of `matrix_scan_custom` on the same snapshot
(build without the external module), both receives successful, with chains `d`
then `d2`: when `d2 = d` the second call returns false; when `d2` differs from
`d` in exactly one bit the second call returns true. -/
theorem matrix_scan_custom_consecutive (snap d d2 : List Nat) (w : World)
    (hs : 5 ≤ snap.length) (hd : ChainOk d) (hd2 : ChainOk d2) :
    (d2 = d →
        (matrix_scan_custom none (SpiRx.ok d2)
          (matrix_scan_custom none (SpiRx.ok d) snap w).current_matrix
          (matrix_scan_custom none (SpiRx.ok d) snap w).world).ret = false)
      ∧ (bit_diff_count d d2 = 1 →
        (matrix_scan_custom none (SpiRx.ok d2)
          (matrix_scan_custom none (SpiRx.ok d) snap w).current_matrix
          (matrix_scan_custom none (SpiRx.ok d) snap w).world).ret = true) := by
  obtain ⟨d0, d1, d2', d3, d4, rfl, h0, h1, h2, h3, h4⟩ := chain_cases hd
  obtain ⟨x0, x1, x2, x3, x4, rfl, k0, k1, k2, k3, k4⟩ := chain_cases hd2
  obtain ⟨a, b, c, e, f, rest, rfl⟩ := rows_cases hs
  rw [matrix_scan_none_ret, matrix_scan_none_matrix]
  simp only [SpiRx.ok]
  rw [scan_loop_cons _ _ _ _ _ _ _ _ _ _ _ h0 h1 h2 h3 h4]
  simp only []
  rw [scan_loop_cons _ _ _ _ _ _ _ _ _ _ _ k0 k1 k2 k3 k4]
  constructor
  · intro heq
    simp only [List.cons.injEq, and_true] at heq
    obtain ⟨e0, e1, e2, e3, e4⟩ := heq
    subst e0 e1 e2 e3 e4
    simp
  · intro hone
    by_contra hret
    simp only [Bool.or_eq_true, decide_eq_true_eq, not_or, ne_eq, not_not] at hret
    obtain ⟨⟨⟨⟨e0, e1⟩, e2⟩, e3⟩, e4⟩ := hret
    have f0 : d0 = x0 := by omega
    have f1 : d1 = x1 := by omega
    have f2 : d2' = x2 := by omega
    have f3 : d3 = x3 := by omega
    have f4 : d4 = x4 := by omega
    subst f0 f1 f2 f3 f4
    rw [bit_diff_count_self] at hone
    exact absurd hone (by decide)

theorem matrix_scan_custom_consecutive_witness :
    (([0xFF, 0xFB, 0xFF, 0xFF, 0xFF] : List Nat) = [0xFF, 0xFF, 0xFF, 0xFF, 0xFF] →
        (matrix_scan_custom none (SpiRx.ok [0xFF, 0xFB, 0xFF, 0xFF, 0xFF])
          (matrix_scan_custom none (SpiRx.ok [0xFF, 0xFF, 0xFF, 0xFF, 0xFF])
            [7, 0, 0, 0, 9] ⟨[], []⟩).current_matrix
          (matrix_scan_custom none (SpiRx.ok [0xFF, 0xFF, 0xFF, 0xFF, 0xFF])
            [7, 0, 0, 0, 9] ⟨[], []⟩).world).ret = false)
      ∧ (bit_diff_count [0xFF, 0xFF, 0xFF, 0xFF, 0xFF] [0xFF, 0xFB, 0xFF, 0xFF, 0xFF] = 1 →
        (matrix_scan_custom none (SpiRx.ok [0xFF, 0xFB, 0xFF, 0xFF, 0xFF])
          (matrix_scan_custom none (SpiRx.ok [0xFF, 0xFF, 0xFF, 0xFF, 0xFF])
            [7, 0, 0, 0, 9] ⟨[], []⟩).current_matrix
          (matrix_scan_custom none (SpiRx.ok [0xFF, 0xFF, 0xFF, 0xFF, 0xFF])
            [7, 0, 0, 0, 9] ⟨[], []⟩).world).ret = true) :=
  matrix_scan_custom_consecutive [7, 0, 0, 0, 9] [0xFF, 0xFF, 0xFF, 0xFF, 0xFF]
    [0xFF, 0xFB, 0xFF, 0xFF, 0xFF] ⟨[], []⟩ (by decide) (by decide) (by decide)

/-- C4: the code at a failed receive.  With the snapshot `[0, 0, 0, 0, 0]` and a
receive that returns a timeout and leaves `[0, 0, 0, 0, 0]` in the buffer,
`matrix_scan_custom` logs the diagnostic and then decodes the buffer all the
same: every one of rows 0..4 becomes `0xFF` and the call returns true, so the
snapshot is not left as it was. -/
theorem matrix_scan_custom_failed_receive_decodes :
    (matrix_scan_custom none ⟨SPI_STATUS_TIMEOUT, [0, 0, 0, 0, 0]⟩ [0, 0, 0, 0, 0]
        ⟨[], []⟩).current_matrix = [0xFF, 0xFF, 0xFF, 0xFF, 0xFF]
      ∧ (matrix_scan_custom none ⟨SPI_STATUS_TIMEOUT, [0, 0, 0, 0, 0]⟩ [0, 0, 0, 0, 0]
        ⟨[], []⟩).current_matrix ≠ [0, 0, 0, 0, 0]
      ∧ (matrix_scan_custom none ⟨SPI_STATUS_TIMEOUT, [0, 0, 0, 0, 0]⟩ [0, 0, 0, 0, 0]
        ⟨[], []⟩).ret = true
      ∧ (matrix_scan_custom none ⟨SPI_STATUS_TIMEOUT, [0, 0, 0, 0, 0]⟩ [0, 0, 0, 0, 0]
        ⟨[], []⟩).world.log =
          [Event.spi_start Pin.GP13 false 0 128, Event.spi_receive 5, Event.spi_stop,
            Event.dprint "ERROR: SPI timed out while reading matrix!"] := by
  refine ⟨by decide, by decide, by decide, ?_⟩
  rfl

/-! ## Encoder pad map -/

theorem mat_is_on_eq_bit_at (mat : List Nat) (row col : Nat) :
    mat_is_on mat row col = bit_at mat row col := by
  unfold mat_is_on bit_at to_bool
  rw [Nat.one_shiftLeft, Nat.and_two_pow]
  cases h : (mat.getD row 0).testBit col <;> simp [Nat.pos_iff_ne_zero.mp (Nat.two_pow_pos col)]

theorem pads_cases6 {pads : List Bool} (h : 6 ≤ pads.length) :
    ∃ p0 p1 p2 p3 p4 p5 rest, pads = p0 :: p1 :: p2 :: p3 :: p4 :: p5 :: rest := by
  match pads, h with
  | p0 :: p1 :: p2 :: p3 :: p4 :: p5 :: rest, _ => exact ⟨p0, p1, p2, p3, p4, p5, rest, rfl⟩

theorem pads_cases8 {pads : List Bool} (h : 8 ≤ pads.length) :
    ∃ p0 p1 p2 p3 p4 p5 p6 p7 rest,
      pads = p0 :: p1 :: p2 :: p3 :: p4 :: p5 :: p6 :: p7 :: rest := by
  match pads, h with
  | p0 :: p1 :: p2 :: p3 :: p4 :: p5 :: p6 :: p7 :: rest, _ =>
    exact ⟨p0, p1, p2, p3, p4, p5, p6, p7, rest, rfl⟩

/-- The pad reader in closed form: six table entries, then the untouched rest. -/
theorem encoder_read_pads_from_eq (is_left : Bool) (pads : List Bool) (mat : List Nat)
    (hp : 6 ≤ pads.length) :
    encoder_read_pads_from is_left pads mat = pad_table is_left mat ++ pads.drop 6 := by
  obtain ⟨p0, p1, p2, p3, p4, p5, rest, rfl⟩ := pads_cases6 hp
  cases is_left <;>
    simp [encoder_read_pads_from, pad_table, pad_positions, mat_is_on_eq_bit_at]

theorem pad_table_length (is_left : Bool) (mat : List Nat) :
    (pad_table is_left mat).length = 6 := by
  cases is_left <;> rfl

/-- C5: `encoder_read_pads_from` sets `pads[0..5]` to the documented per-half
table.  Left: bits (0,6), (0,7), (1,2), (1,3), (1,0), (1,1) of `mat`; Right:
bits (0,0), (0,1), (1,4), (1,5), (1,6), (1,7).  With row 0 = `0xC0` and
row 1 = `0x0F` the Left result is six times true and the Right result six times
false. -/
theorem encoder_read_pads_from_table (pads : List Bool) (mat : List Nat)
    (hp : 6 ≤ pads.length) :
    (encoder_read_pads_from true pads mat).take 6 =
        [bit_at mat 0 6, bit_at mat 0 7, bit_at mat 1 2, bit_at mat 1 3,
          bit_at mat 1 0, bit_at mat 1 1]
      ∧ (encoder_read_pads_from false pads mat).take 6 =
        [bit_at mat 0 0, bit_at mat 0 1, bit_at mat 1 4, bit_at mat 1 5,
          bit_at mat 1 6, bit_at mat 1 7]
      ∧ (mat.getD 0 0 = 0xC0 → mat.getD 1 0 = 0x0F →
          (encoder_read_pads_from true pads mat).take 6
              = [true, true, true, true, true, true]
            ∧ (encoder_read_pads_from false pads mat).take 6
              = [false, false, false, false, false, false]) := by
  have hl := encoder_read_pads_from_eq true pads mat hp
  have hr := encoder_read_pads_from_eq false pads mat hp
  have tl : (encoder_read_pads_from true pads mat).take 6 = pad_table true mat := by
    rw [hl, List.take_left' (pad_table_length true mat)]
  have tr : (encoder_read_pads_from false pads mat).take 6 = pad_table false mat := by
    rw [hr, List.take_left' (pad_table_length false mat)]
  refine ⟨by rw [tl]; rfl, by rw [tr]; rfl, ?_⟩
  intro h0 h1
  rw [tl, tr]
  simp only [pad_table, pad_positions, bit_at, if_true, Bool.false_eq_true, if_false,
    List.map, h0, h1]
  decide

theorem encoder_read_pads_from_table_witness :
    (encoder_read_pads_from true (List.replicate 8 false) [0xC0, 0x0F, 0, 0, 0]).take 6 =
        [bit_at [0xC0, 0x0F, 0, 0, 0] 0 6, bit_at [0xC0, 0x0F, 0, 0, 0] 0 7,
          bit_at [0xC0, 0x0F, 0, 0, 0] 1 2, bit_at [0xC0, 0x0F, 0, 0, 0] 1 3,
          bit_at [0xC0, 0x0F, 0, 0, 0] 1 0, bit_at [0xC0, 0x0F, 0, 0, 0] 1 1]
      ∧ (encoder_read_pads_from false (List.replicate 8 false)
          [0xC0, 0x0F, 0, 0, 0]).take 6 =
        [bit_at [0xC0, 0x0F, 0, 0, 0] 0 0, bit_at [0xC0, 0x0F, 0, 0, 0] 0 1,
          bit_at [0xC0, 0x0F, 0, 0, 0] 1 4, bit_at [0xC0, 0x0F, 0, 0, 0] 1 5,
          bit_at [0xC0, 0x0F, 0, 0, 0] 1 6, bit_at [0xC0, 0x0F, 0, 0, 0] 1 7]
      ∧ (([0xC0, 0x0F, 0, 0, 0] : List Nat).getD 0 0 = 0xC0 →
          ([0xC0, 0x0F, 0, 0, 0] : List Nat).getD 1 0 = 0x0F →
          (encoder_read_pads_from true (List.replicate 8 false)
              [0xC0, 0x0F, 0, 0, 0]).take 6 = [true, true, true, true, true, true]
            ∧ (encoder_read_pads_from false (List.replicate 8 false)
              [0xC0, 0x0F, 0, 0, 0]).take 6
              = [false, false, false, false, false, false]) :=
  encoder_read_pads_from_table (List.replicate 8 false) [0xC0, 0x0F, 0, 0, 0]
    (by decide)

theorem encoder_read_pads_from_length (is_left : Bool) (pads : List Bool) (mat : List Nat) :
    (encoder_read_pads_from is_left pads mat).length = pads.length := by
  cases is_left <;> simp [encoder_read_pads_from]

/-- C6: in the build without the companion module, whatever `raw_matrix`, the
board half, the previous pads (and, for `encoder_init_pads`, whatever the
receive returns and the local matrix holds), `pads[6]` and `pads[7]` are false
after `encoder_read_pads` and after `encoder_init_pads`. -/
theorem encoder_pads_reserved_slots_false (is_left : Bool) (rx : SpiRx)
    (mat : List Nat) (count : Nat) (pads : List Bool) (w : World)
    (hp : 8 ≤ pads.length) :
    ((encoder_read_pads none is_left count pads w).pads.get? 6 = some false
        ∧ (encoder_read_pads none is_left count pads w).pads.get? 7 = some false)
      ∧ ((encoder_init_pads none is_left rx mat count pads w).pads.get? 6 = some false
        ∧ (encoder_init_pads none is_left rx mat count pads w).pads.get? 7 = some false) := by
  have key : ∀ m : List Nat, ∀ w2 : World,
      (clear_myriad_pads none count (encoder_read_pads_from is_left pads m) w2).pads.get? 6
          = some false
        ∧ (clear_myriad_pads none count (encoder_read_pads_from is_left pads m) w2).pads.get? 7
          = some false := by
    intro m w2
    have hl : 8 ≤ (encoder_read_pads_from is_left pads m).length := by
      rw [encoder_read_pads_from_length]; exact hp
    obtain ⟨q0, q1, q2, q3, q4, q5, q6, q7, rest, hq⟩ := pads_cases8 hl
    rw [hq]
    simp [clear_myriad_pads]
  exact ⟨key _ _, key _ _⟩

theorem encoder_pads_reserved_slots_false_witness :
    ((encoder_read_pads none true 8 (List.replicate 8 true) ⟨[0xFF, 0xFF, 0xFF], []⟩).pads.get? 6
          = some false
        ∧ (encoder_read_pads none true 8 (List.replicate 8 true)
            ⟨[0xFF, 0xFF, 0xFF], []⟩).pads.get? 7 = some false)
      ∧ ((encoder_init_pads none true (SpiRx.ok [0, 0, 0, 0, 0]) [9, 9, 9, 9, 9] 8
            (List.replicate 8 true) ⟨[0xFF, 0xFF, 0xFF], []⟩).pads.get? 6 = some false
        ∧ (encoder_init_pads none true (SpiRx.ok [0, 0, 0, 0, 0]) [9, 9, 9, 9, 9] 8
            (List.replicate 8 true) ⟨[0xFF, 0xFF, 0xFF], []⟩).pads.get? 7 = some false) :=
  encoder_pads_reserved_slots_false true (SpiRx.ok [0, 0, 0, 0, 0]) [9, 9, 9, 9, 9] 8
    (List.replicate 8 true) ⟨[0xFF, 0xFF, 0xFF], []⟩ (by decide)

/-- C7: the code on a tick whose decode already detects a change, in the build
with the external module.  Snapshot `[0, 0, 0, 0, 0, 0]`, chain
`[0xFE, 0xFF, 0xFF, 0xFF, 0xFF]`, hook `companion_switch`: the decode gives
`[1, 0, 0, 0, 0, 0]` and a true flag, `||` short-circuits, `myriad_hook_matrix`
is not called, and the published snapshot is the decoded one, not the hook's
`[1, 0, 0, 0, 0, 1]`.  On the next tick with the same chain the decode detects
no change and the hook does run. -/
theorem matrix_scan_custom_hook_skipped_on_change :
    (matrix_scan_custom (some companion_switch) (SpiRx.ok [0xFE, 0xFF, 0xFF, 0xFF, 0xFF])
        [0, 0, 0, 0, 0, 0] ⟨[], []⟩).current_matrix = [1, 0, 0, 0, 0, 0]
      ∧ (companion_switch.hook_matrix [1, 0, 0, 0, 0, 0]).1 = [1, 0, 0, 0, 0, 1]
      ∧ (matrix_scan_custom (some companion_switch) (SpiRx.ok [0xFE, 0xFF, 0xFF, 0xFF, 0xFF])
        [0, 0, 0, 0, 0, 0] ⟨[], []⟩).ret = true
      ∧ (matrix_scan_custom (some companion_switch) (SpiRx.ok [0xFE, 0xFF, 0xFF, 0xFF, 0xFF])
        [0, 0, 0, 0, 0, 0] ⟨[], []⟩).world.log =
          [Event.spi_start Pin.GP13 false 0 128, Event.spi_receive 5, Event.spi_stop,
            Event.myriad_task]
      ∧ (matrix_scan_custom (some companion_switch) (SpiRx.ok [0xFE, 0xFF, 0xFF, 0xFF, 0xFF])
        [1, 0, 0, 0, 0, 0] ⟨[], []⟩).current_matrix = [1, 0, 0, 0, 0, 1]
      ∧ (matrix_scan_custom (some companion_switch) (SpiRx.ok [0xFE, 0xFF, 0xFF, 0xFF, 0xFF])
        [1, 0, 0, 0, 0, 0] ⟨[], []⟩).world.log =
          [Event.spi_start Pin.GP13 false 0 128, Event.spi_receive 5, Event.spi_stop,
            Event.myriad_task, Event.myriad_hook_matrix [1, 0, 0, 0, 0, 0]] := by
  refine ⟨by decide, by decide, by decide, by decide, by decide, by decide⟩

/-- The `MYRIAD_ENABLE` build in closed form: the hook runs exactly on the ticks
whose decode detected no change. -/
theorem matrix_scan_custom_some (m : Myriad) (rx : SpiRx) (cur : List Nat) (w : World) :
    ((scan_loop 5 rx.data cur).1 = true →
        (matrix_scan_custom (some m) rx cur w).ret = true
          ∧ (matrix_scan_custom (some m) rx cur w).current_matrix = (scan_loop 5 rx.data cur).2)
      ∧ ((scan_loop 5 rx.data cur).1 = false →
        (matrix_scan_custom (some m) rx cur w).ret
            = (m.hook_matrix (scan_loop 5 rx.data cur).2).2
          ∧ (matrix_scan_custom (some m) rx cur w).current_matrix
            = (m.hook_matrix (scan_loop 5 rx.data cur).2).1) := by
  constructor <;> intro h <;> simp [matrix_scan_custom, h]

theorem transport_log_emit (w : World) (e : Event) :
    transport_log (w.emit e) = transport_log w ++ (if e.is_transport then [e] else []) := by
  unfold transport_log World.emit
  by_cases h : e.is_transport = true <;> simp [List.filter_append, List.filter, h]

/-- C8 (as the claim states it, refuted): on a successful scan the logged
`spi_start` does not carry clock divisor 2. -/
theorem matrix_scan_custom_divisor_is_not_two :
    ¬ (∀ e ∈ (matrix_scan_custom none (SpiRx.ok [0xFF, 0xFF, 0xFF, 0xFF, 0xFF])
          [0, 0, 0, 0, 0] ⟨[], []⟩).world.log,
        ∀ pin lsb mode divisor, e = Event.spi_start pin lsb mode divisor →
          mode = 0 ∧ divisor = 2) := by
  intro h
  have h2 := h (Event.spi_start Pin.GP13 false 0 128) (by decide) Pin.GP13 false 0 128 rfl
  exact absurd h2.2 (by decide)

theorem matrix_scan_custom_transport (myriad : Option Myriad) (rx : SpiRx)
    (m : List Nat) (w : World) :
    transport_log (matrix_scan_custom myriad rx m w).world =
      transport_log w ++
        [Event.spi_start Pin.GP13 false 0 128, Event.spi_receive 5, Event.spi_stop] := by
  unfold matrix_scan_custom
  cases myriad <;> simp only [] <;> split_ifs <;>
    simp [transport_log_emit, Event.is_transport]

/-- C8 (amended): every call of `matrix_scan_custom`, in either build and
whatever the receive returns, logs `spi_start(GP13, false, 0, 128)`, one
`spi_receive` of 5 bytes and `spi_stop`, in this order, and after them no
further transport call: bus mode 0, clock divisor 128, 5 bytes between one
start and one stop. -/
theorem matrix_scan_custom_transport_parameters (myriad : Option Myriad) (rx : SpiRx)
    (m : List Nat) (w : World) :
    ∃ tail : List Event,
      (matrix_scan_custom myriad rx m w).world.log =
          w.log ++
            [Event.spi_start Pin.GP13 false 0 128, Event.spi_receive 5, Event.spi_stop]
            ++ tail
        ∧ ∀ e ∈ tail, e.is_transport = false := by
  unfold matrix_scan_custom
  cases myriad <;> simp only [] <;> split_ifs <;>
    exact ⟨_, by simp only [World.emit, List.append_assoc, List.singleton_append,
      List.cons_append, List.nil_append, List.append_nil]; rfl, by simp [Event.is_transport]⟩

/-! ## Boot gate -/

theorem standby_step (myriad : Option Myriad) (s : Boot) (e : Env)
    (h : s.pc = Pc.enter_standby_mode) :
    (step myriad s e).pc = Pc.enter_standby_mode
      ∧ transport_log (step myriad s e).world = transport_log s.world := by
  unfold step
  rw [h]
  simp [enter_standby_mode, transport_log_emit, Event.is_transport]

theorem standby_run (myriad : Option Myriad) (es : List Env) :
    ∀ s : Boot, s.pc = Pc.enter_standby_mode →
      (run myriad s es).pc = Pc.enter_standby_mode
        ∧ transport_log (run myriad s es).world = transport_log s.world := by
  induction es with
  | nil => intro s h; exact ⟨h, rfl⟩
  | cons e t ih =>
    intro s h
    have hs := standby_step myriad s e h
    have ht := ih (step myriad s e) hs.1
    exact ⟨ht.1, ht.2.trans hs.2⟩

theorem transport_log_nil (raw : List Nat) : transport_log ⟨raw, []⟩ = [] := rfl

theorem scan_tick_transport (myriad : Option Myriad) (rx : SpiRx) (w : World) :
    transport_log (scan_tick myriad rx w) =
      transport_log w ++
        [Event.spi_start Pin.GP13 false 0 128, Event.spi_receive 5, Event.spi_stop] :=
  matrix_scan_custom_transport myriad rx w.raw_matrix w

/-- With GP2 high the gate lets the firmware through: after
`keyboard_pre_init_kb` the first scan tick issues the three transport calls. -/
theorem boot_gate_open_scans (raw : List Nat) (rx : SpiRx) :
    (run none (reset raw) [⟨true, rx⟩, ⟨true, rx⟩, ⟨true, rx⟩]).pc = Pc.scanning
      ∧ transport_calls (run none (reset raw) [⟨true, rx⟩, ⟨true, rx⟩, ⟨true, rx⟩]).world
        = 3 := by
  constructor
  · rfl
  · simp only [transport_calls, run, List.foldl, step, reset, early_hardware_init_pre,
      Bool.not_true, Bool.false_eq_true, if_false]
    rw [scan_tick_transport]
    simp [keyboard_pre_init_kb, transport_log_emit, Event.is_transport, transport_log_nil]

/-- C9: when GP2 reads low, `early_hardware_init_pre` enters
`enter_standby_mode`; standby is absorbing (every step from it stays in it and
adds no transport call); so however long the boot sequence runs after reset it
sits in standby, never reaches `keyboard_pre_init_kb` or a scan tick, and the
transport call count is zero. -/
theorem boot_gate_standby_absorbing (myriad : Option Myriad) (raw : List Nat)
    (e : Env) (es : List Env) (h : e.gp2 = false) :
    (step myriad (reset raw) e).pc = Pc.enter_standby_mode
      ∧ (∀ (s : Boot) (e2 : Env), s.pc = Pc.enter_standby_mode →
          (step myriad s e2).pc = Pc.enter_standby_mode
            ∧ transport_calls (step myriad s e2).world = transport_calls s.world)
      ∧ (run myriad (reset raw) (e :: es)).pc = Pc.enter_standby_mode
      ∧ transport_calls (run myriad (reset raw) (e :: es)).world = 0 := by
  have h1 : (step myriad (reset raw) e).pc = Pc.enter_standby_mode := by
    simp [step, reset, early_hardware_init_pre, h]
  have h2 : transport_log (step myriad (reset raw) e).world = [] := by
    simp only [step, reset, early_hardware_init_pre, h, Bool.not_false, if_true]
    simp [transport_log_emit, Event.is_transport, transport_log_nil]
  have hr := standby_run myriad es (step myriad (reset raw) e) h1
  refine ⟨h1, ?_, hr.1, ?_⟩
  · intro s e2 hs
    have := standby_step myriad s e2 hs
    exact ⟨this.1, by unfold transport_calls; rw [this.2]⟩
  · have hrun : run myriad (reset raw) (e :: es) = run myriad (step myriad (reset raw) e) es :=
      rfl
    unfold transport_calls
    rw [hrun, hr.2, h2]
    rfl

theorem boot_gate_standby_absorbing_witness :
    (step none (reset [0, 0, 0, 0, 0]) ⟨false, SpiRx.ok [0, 0, 0, 0, 0]⟩).pc
        = Pc.enter_standby_mode
      ∧ (∀ (s : Boot) (e2 : Env), s.pc = Pc.enter_standby_mode →
          (step none s e2).pc = Pc.enter_standby_mode
            ∧ transport_calls (step none s e2).world = transport_calls s.world)
      ∧ (run none (reset [0, 0, 0, 0, 0])
          (⟨false, SpiRx.ok [0, 0, 0, 0, 0]⟩ ::
            [⟨true, SpiRx.ok [0, 0, 0, 0, 0]⟩, ⟨true, SpiRx.ok [0, 0, 0, 0, 0]⟩])).pc
        = Pc.enter_standby_mode
      ∧ transport_calls (run none (reset [0, 0, 0, 0, 0])
          (⟨false, SpiRx.ok [0, 0, 0, 0, 0]⟩ ::
            [⟨true, SpiRx.ok [0, 0, 0, 0, 0]⟩, ⟨true, SpiRx.ok [0, 0, 0, 0, 0]⟩])).world
        = 0 :=
  boot_gate_standby_absorbing none [0, 0, 0, 0, 0] ⟨false, SpiRx.ok [0, 0, 0, 0, 0]⟩
    [⟨true, SpiRx.ok [0, 0, 0, 0, 0]⟩, ⟨true, SpiRx.ok [0, 0, 0, 0, 0]⟩] rfl

end Elora
